import Mathlib

/-!
Shallow embedding of the bank market-capitalization ETL pipeline
(src/ETL/bank_projects.py) and verification of its specification.

Conventions of the embedding:
* Python strings are modelled as `String` / `List Char`; `str.strip` becomes
  `pyStrip`, `str.replace` of a newline by the empty string becomes
  `stripNewlines` (removal of every newline character).
* Python `float` values are modelled as exact rationals `ℚ`; the numeric
  parser `pyFloatCore` follows the grammar accepted by the Python `float`
  constructor (optional sign, digits, decimal point, optional exponent).
  The special spellings `inf`/`nan` and digit underscores are outside the
  modelled fragment; they do not occur in the data handled by the pipeline.
* A missing numeric value appears in two distinct forms, as in pandas:
  when the USD column also holds a number, the frame constructor coerces
  Python `None` to the floating NaN, modelled as `PVal.null`, and
  arithmetic propagates it; in a non-empty column with no numeric value
  the `None` objects are kept (object dtype), modelled as `PVal.pyNone`,
  and multiplying one by a rate raises a TypeError.
* Fallible Python code is modelled with `Except String`, the string being
  the kind of exception raised.
-/

namespace BankETL

/-! ### Python string primitives -/

/-- Model of Python `str.strip`: remove whitespace from both ends. -/
def pyStrip (cs : List Char) : List Char :=
  ((cs.dropWhile Char.isWhitespace).reverse.dropWhile Char.isWhitespace).reverse

/-- Model of Python `s.replace` of a newline by the empty string:
remove every newline character. -/
def stripNewlines (cs : List Char) : List Char :=
  cs.filter (fun c => c ≠ '\n')

/-- `pyStrip` lifted to `String`. -/
def pyStripStr (s : String) : String := ⟨pyStrip s.data⟩

/-- `stripNewlines` lifted to `String`. -/
def stripNewlinesStr (s : String) : String := ⟨stripNewlines s.data⟩

/-! ### Model of the Python float constructor, over exact rationals -/

/-- Numeric value of a big-endian list of decimal digit characters. -/
def digitsVal (cs : List Char) : Nat :=
  cs.foldl (fun a c => a * 10 + (c.toNat - 48)) 0

/-- Exponent part of a float literal: optional sign, then at least one
digit and nothing else. -/
def pyExp (mant : ℚ) (cs : List Char) : Option ℚ :=
  match cs with
  | [] => none
  | c :: t =>
    let body := if c == '+' || c == '-' then t else c :: t
    let ds := body.takeWhile Char.isDigit
    let rest := body.dropWhile Char.isDigit
    if ds.isEmpty || !rest.isEmpty then none
    else some (if c == '-' then mant / 10 ^ digitsVal ds else mant * 10 ^ digitsVal ds)

/-- Float literal after the optional leading sign: digits, an optional
decimal point with further digits (at least one digit in total), and an
optional exponent part. -/
def pyAfterSign (sgn : ℚ) (cs : List Char) : Option ℚ :=
  let ip := cs.takeWhile Char.isDigit
  let rest := cs.dropWhile Char.isDigit
  match rest with
  | [] => if ip.isEmpty then none else some (sgn * digitsVal ip)
  | c :: t =>
    if c == '.' then
      let fp := t.takeWhile Char.isDigit
      let rest2 := t.dropWhile Char.isDigit
      if ip.isEmpty && fp.isEmpty then none
      else
        let mant := sgn * ((digitsVal ip : ℚ) + (digitsVal fp : ℚ) / 10 ^ fp.length)
        match rest2 with
        | [] => some mant
        | c2 :: t2 => if c2 == 'e' || c2 == 'E' then pyExp mant t2 else none
    else if (c == 'e' || c == 'E') && !ip.isEmpty then pyExp (sgn * digitsVal ip) t
    else none

/-- Core of the Python `float` constructor on a list of characters:
optional sign followed by the mantissa and exponent. -/
def pyFloatCore (cs : List Char) : Option ℚ :=
  match cs with
  | [] => pyAfterSign 1 []
  | c :: t =>
    if c == '+' then pyAfterSign 1 t
    else if c == '-' then pyAfterSign (-1) t
    else pyAfterSign 1 (c :: t)

/-- Model of the Python `float` constructor on a string: surrounding
whitespace is ignored, the rest must be a float literal; `none` models the
`ValueError` raised on any other input. -/
def pyFloat? (s : String) : Option ℚ :=
  pyFloatCore (pyStrip s.data)

/-- The characters that can occur in a float literal accepted by the
Python `float` constructor (within the modelled fragment). -/
def isFloatChar (c : Char) : Bool :=
  c.isDigit || c == '+' || c == '-' || c == '.' || c == 'e' || c == 'E'

/-! ### Data model: bank records and the parsed document -/

/-- One row of the extracted bank table: the bank name and its market
capitalization in USD billions, absent when the cell could not be parsed
as a number. -/
structure BankRecord where
  name : String
  mc_usd : Option ℚ
deriving DecidableEq, Repr

/-- One `tbody` element of the fetched document, abstracted to the label
text of the nearest preceding section heading (the text of the `span` of
the `h2` found by `find_previous`) together with its rows, each row being
the list of the text contents of its `td` cells.  Every table body of the
pages in scope has such a preceding heading. -/
structure TableBody where
  heading : String
  rows : List (List String)
deriving DecidableEq, Repr

/-- The fixed heading label of the target table. -/
def targetHeading : String := "By market capitalization"

/-- The loop of `extract` that scans all table bodies and stops at the
first one whose preceding heading label equals the target string. -/
def findTargetTable (doc : List TableBody) : Option TableBody :=
  doc.find? (fun t => t.heading == targetHeading)

/-- The record assembled from one row: the name is the stripped text of
the second cell, the market cap is the float parse of the third cell after
stripping and newline removal. -/
def rowRecord (cols : List String) : BankRecord :=
  { name := pyStripStr ((cols.get? 1).getD "")
    mc_usd := pyFloat? (stripNewlinesStr (pyStripStr ((cols.get? 2).getD ""))) }

/-- The row loop of `extract`.  A row with fewer than two cells is
skipped.  A row with at least two cells has its second cell read as the
name and its third cell read as the market cap; reading the third cell of
a row that has exactly two cells raises an IndexError, modelled as an
error result. -/
def extractRows : List (List String) → Except String (List BankRecord)
  | [] => .ok []
  | cols :: rest =>
    if cols.length ≥ 2 then
      match cols.get? 2 with
      | none => .error "IndexError: list index out of range"
      | some _ =>
        (extractRows rest).map (fun recs => rowRecord cols :: recs)
    else extractRows rest

/-- Model of `extract` on an already fetched and parsed document: select
the first table body whose preceding heading label is the target string
(raising a ValueError when there is none), drop its first row, and run the
row loop. -/
def extract (doc : List TableBody) : Except String (List BankRecord) :=
  match findTargetTable doc with
  | none => .error "Could not find the target table on the page."
  | some t => extractRows (t.rows.drop 1)

/-! ### Data frames

A pandas data frame is modelled as an ordered list of named columns.  A
cell holds a text value, a numeric value, or `null` (Python `None` or the
floating NaN pandas stores for a missing number).  Assigning to a column
name that already exists replaces that column in place; assigning to a
fresh name appends the column at the end, as pandas does. -/

/-- A cell value of a data frame: text, a number, the floating NaN, or a
Python `None` object kept in a column of object dtype. -/
inductive PVal where
  | str (s : String)
  | num (q : ℚ)
  | null
  | pyNone
deriving DecidableEq, Repr

/-- A data frame: an ordered list of named columns. -/
structure DataFrame where
  cols : List (String × List PVal)
deriving DecidableEq, Repr

/-- Read a column by name (the first column of that name). -/
def DataFrame.getCol (df : DataFrame) (c : String) : Option (List PVal) :=
  (df.cols.find? (fun p => p.1 == c)).map Prod.snd

/-- Column assignment: replace in place when the name exists, append at
the end otherwise. -/
def DataFrame.setCol (df : DataFrame) (c : String) (vs : List PVal) : DataFrame :=
  if df.cols.any (fun p => p.1 == c) then
    ⟨df.cols.map (fun p => if p.1 == c then (c, vs) else p)⟩
  else ⟨df.cols ++ [(c, vs)]⟩

/-- The cell of column `c` at row `i`. -/
def DataFrame.cellAt (df : DataFrame) (c : String) (i : Nat) : Option PVal :=
  (df.getCol c).bind (fun vs => vs[i]?)

/-- An optional number as a cell of a numeric column. -/
def toPVal : Option ℚ → PVal
  | some q => PVal.num q
  | none => PVal.null

/-- The cell stored for one market cap, given whether the column holds
any number: pandas coerces `None` to NaN only in that case; otherwise the
`None` object is kept. -/
def mcCell (anyNum : Bool) : Option ℚ → PVal
  | some q => PVal.num q
  | none => if anyNum then PVal.null else PVal.pyNone

/-- The data frame built by `extract` from its record list:
`pd.DataFrame(data, columns=['Name', 'MC_USD_Billion'])`.  The market-cap
column gets dtype float64, with `None` as NaN, exactly when some record
has a numeric market cap; otherwise it keeps the `None` objects. -/
def mkBankDf (records : List BankRecord) : DataFrame :=
  let anyNum := records.any (fun r => r.mc_usd.isSome)
  ⟨[("Name", records.map (fun r => PVal.str r.name)),
    ("MC_USD_Billion", records.map (fun r => mcCell anyNum r.mc_usd))]⟩

/-- A record list whose bank frame has a numeric market-cap column: the
table is empty or some market cap parsed as a number.  On such tables the
derivation arithmetic is total; on any other table `transform` raises a
TypeError from `None * rate`. -/
def numericTable (records : List BankRecord) : Bool :=
  records.isEmpty || records.any (fun r => r.mc_usd.isSome)

/-- The bank frame of a record list with a numeric market-cap column,
absent values stored as NaN; equal to `mkBankDf` on `numericTable`
record lists. -/
def numBankDf (records : List BankRecord) : DataFrame :=
  ⟨[("Name", records.map (fun r => PVal.str r.name)),
    ("MC_USD_Billion", records.map (fun r => toPVal r.mc_usd))]⟩

/-! ### The transformer -/

/-- Rounding half to even at integer precision, as `np.round` documents. -/
def roundHalfEven (q : ℚ) : ℤ :=
  let n := ⌊q⌋
  if q - n < 1/2 then n
  else if 1/2 < q - n then n + 1
  else if Even n then n else n + 1

/-- Model of `np.round` at two decimal places. -/
def npRound2 (q : ℚ) : ℚ :=
  (roundHalfEven (q * 100) : ℚ) / 100

/-- The exchange-rate CSV as parsed by `pd.read_csv`: the list of column
names of the file, and its data rows, each a currency code with its rate
(the file format of the specification: a code column and a float column). -/
structure RateCsv where
  header : List String
  rows : List (String × ℚ)
deriving DecidableEq, Repr

/-- Lookup in the dictionary built by `set_index` and `to_dict`: a Python
dict maps each currency to the value of its last occurrence. -/
def rateLookup (rows : List (String × ℚ)) (cur : String) : Option ℚ :=
  (rows.reverse.find? (fun p => p.1 == cur)).map Prod.snd

/-- Loading the exchange-rate file:
`pd.read_csv(csv_path).set_index('Currency').to_dict()['Rates']`.
A missing file raises FileNotFoundError; a missing `Currency` column makes
`set_index` raise a KeyError; a missing `Rates` column makes the dict
subscript raise a KeyError. -/
def loadRates : Option RateCsv → Except String (List (String × ℚ))
  | none => .error "FileNotFoundError"
  | some f =>
    if "Currency" ∈ f.header then
      if "Rates" ∈ f.header then .ok f.rows
      else .error "KeyError: Rates"
    else .error "KeyError: Currency"

/-- One step of the list comprehension
`np.round(x * exchange_rate_dict[cur], 2)`: the dict subscript is
evaluated on every iteration and raises a KeyError when the currency is
absent; multiplying a text cell by a float raises a TypeError; NaN
propagates through the arithmetic. -/
def deriveVal (rates : List (String × ℚ)) (cur : String) : PVal → Except String PVal
  | PVal.num q =>
    match rateLookup rates cur with
    | some r => .ok (PVal.num (npRound2 (q * r)))
    | none => .error ("KeyError: " ++ cur)
  | PVal.null =>
    match rateLookup rates cur with
    | some _ => .ok PVal.null
    | none => .error ("KeyError: " ++ cur)
  | PVal.pyNone =>
    match rateLookup rates cur with
    | some _ => .error "TypeError: unsupported operand type"
    | none => .error ("KeyError: " ++ cur)
  | PVal.str _ =>
    match rateLookup rates cur with
    | some _ => .error "TypeError: unsupported operand type"
    | none => .error ("KeyError: " ++ cur)

/-- The whole list comprehension deriving one currency column from the
USD column.  On an empty column the body of the comprehension never runs,
so no error can be raised. -/
def deriveCol (rates : List (String × ℚ)) (cur : String) :
    List PVal → Except String (List PVal)
  | [] => .ok []
  | v :: vs =>
    match deriveVal rates cur v with
    | .error e => .error e
    | .ok w =>
      match deriveCol rates cur vs with
      | .error e => .error e
      | .ok ws => .ok (w :: ws)

/-- Reading a data-frame column by subscript, raising a KeyError when the
column does not exist. -/
def getColE (df : DataFrame) (c : String) : Except String (List PVal) :=
  match df.getCol c with
  | some vs => .ok vs
  | none => .error ("KeyError: " ++ c)

/-- Model of `transform`: load the rate dictionary, then derive and assign
the GBP, EUR and INR columns in that order, each computed from the
`MC_USD_Billion` column; any exception raised on the way propagates. -/
def transform (df : DataFrame) (src : Option RateCsv) : Except String DataFrame :=
  match loadRates src with
  | .error e => .error e
  | .ok rates =>
    match getColE df "MC_USD_Billion" with
    | .error e => .error e
    | .ok mc1 =>
      match deriveCol rates "GBP" mc1 with
      | .error e => .error e
      | .ok gbp =>
        let df1 := df.setCol "MC_GBP_Billion" gbp
        match getColE df1 "MC_USD_Billion" with
        | .error e => .error e
        | .ok mc2 =>
          match deriveCol rates "EUR" mc2 with
          | .error e => .error e
          | .ok eur =>
            let df2 := df1.setCol "MC_EUR_Billion" eur
            match getColE df2 "MC_USD_Billion" with
            | .error e => .error e
            | .ok mc3 =>
              match deriveCol rates "INR" mc3 with
              | .error e => .error e
              | .ok inr => .ok (df2.setCol "MC_INR_Billion" inr)

/-- The frame a successful `transform` produces from the bank table of a
record list: the two original columns followed by the three derived
columns. -/
def transformedDf (recs : List BankRecord) (rG rE rI : ℚ) : DataFrame :=
  ⟨[("Name", recs.map (fun r => PVal.str r.name)),
    ("MC_USD_Billion", recs.map (fun r => toPVal r.mc_usd)),
    ("MC_GBP_Billion", recs.map (fun r => toPVal (r.mc_usd.map (fun q => npRound2 (q * rG))))),
    ("MC_EUR_Billion", recs.map (fun r => toPVal (r.mc_usd.map (fun q => npRound2 (q * rE))))),
    ("MC_INR_Billion", recs.map (fun r => toPVal (r.mc_usd.map (fun q => npRound2 (q * rI)))))]⟩

/-! ### The database loader

A relational database file is modelled as an association of table names to
tables.  `df.to_sql(name, conn, if_exists='replace', index=False)` drops
any table of that name and creates it afresh from the data frame. -/

/-- Model of `load_to_db`: full replace of the named table. -/
def load_to_db (db : List (String × DataFrame)) (df : DataFrame) (name : String) :
    List (String × DataFrame) :=
  (name, df) :: db.filter (fun p => p.1 != name)

/-- The table of a given name in the database. -/
def lookupTable (db : List (String × DataFrame)) (name : String) : Option DataFrame :=
  (db.find? (fun p => p.1 == name)).map Prod.snd

/-- How many tables of a given name the database holds. -/
def countTables (db : List (String × DataFrame)) (name : String) : Nat :=
  (db.filter (fun p => p.1 == name)).length

/-! ### The CSV loader

`df.to_csv(path, index=False)` writes a header line with the column names
and one comma-delimited line per record, with no index column, overwriting
the file; `pd.read_csv` reads it back, inferring for every column a
numeric type when all its fields parse as numbers (empty fields become
NaN) and keeping text otherwise.  The modelled fragment covers fields
without embedded delimiter, quote or newline characters (pandas would
quote such fields), which is all this pipeline produces. -/

/-- Join the cells of one CSV line with comma separators. -/
def myJoin : List (List Char) → List Char
  | [] => []
  | [x] => x
  | x :: xs => x ++ ',' :: myJoin xs

/-- Split one CSV line at its commas. -/
def mySplit : List Char → List (List Char)
  | [] => [[]]
  | c :: t =>
    match mySplit t with
    | [] => [[c]]
    | s :: ss => if c = ',' then [] :: s :: ss else (c :: s) :: ss

/-- The decimal digit character of a digit value. -/
def digitChar (d : Nat) : Char := Char.ofNat (48 + d)

/-- Big-endian decimal digit characters of a natural number. -/
def natDigits (n : Nat) : List Char :=
  if n = 0 then ['0']
  else (Nat.digits 10 n).reverse.map digitChar

/-- Left-pad a digit string with zeros to width `k`. -/
def padZeros (k : Nat) (cs : List Char) : List Char :=
  List.replicate (k - cs.length) '0' ++ cs

/-- The least exponent `k < 64` with `d` dividing `10 ^ k`, when one
exists: the number of decimal places needed for denominator `d`. -/
def decExp (d : Nat) : Option Nat :=
  (List.range 64).find? (fun k => 10 ^ k % d == 0)

/-- Decimal rendering of a number as a float is printed: optional minus
sign, integer digits, a decimal point and at least one fractional digit.
A value without a finite decimal expansion of fewer than 64 places cannot
arise from parsed float data; it is rendered as a placeholder and is
outside the modelled fragment. -/
def renderNum (q : ℚ) : List Char :=
  match decExp q.den with
  | none => ['?']
  | some k0 =>
    let k := max k0 1
    let scaled := q.num.natAbs * (10 ^ k / q.den)
    (if q.num < 0 then ['-'] else []) ++
      natDigits (scaled / 10 ^ k) ++
      '.' :: padZeros k (natDigits (scaled % 10 ^ k))

/-- One CSV field of a cell: text as is, numbers in decimal, NaN as the
empty field. -/
def renderCell : PVal → List Char
  | PVal.str s => s.data
  | PVal.num q => renderNum q
  | PVal.null => []
  | PVal.pyNone => []

/-- The number of records of a data frame (the length of its first
column). -/
def nRows (df : DataFrame) : Nat :=
  match df.cols with
  | [] => 0
  | c :: _ => c.2.length

/-- Model of `to_csv` with `index=False`: the header line of column
names followed by one line per record, each a comma-delimited list of the
rendered cells, in table order. -/
def toCsv (df : DataFrame) : List (List Char) :=
  myJoin (df.cols.map (fun p => p.1.data)) ::
    (List.range (nRows df)).map (fun i =>
      myJoin (df.cols.map (fun p => renderCell (p.2.getD i PVal.null))))

/-- Type inference of `read_csv` for one column: numeric when every field
is empty or parses as a number. -/
def colIsNumeric (cells : List (List Char)) : Bool :=
  cells.all (fun c => c.isEmpty || (pyFloatCore c).isSome)

/-- One field as read back by `read_csv`: empty fields are NaN; in a
numeric column fields are parsed, otherwise kept as text. -/
def parseCell (numeric : Bool) (cs : List Char) : PVal :=
  if cs.isEmpty then PVal.null
  else if numeric then
    match pyFloatCore cs with
    | some q => PVal.num q
    | none => PVal.null
  else PVal.str ⟨cs⟩

/-- Model of `pd.read_csv` on the lines of a file: the first line names
the columns, every further line is one record; each column is parsed
according to its inferred type. -/
def fromCsv : List (List Char) → DataFrame
  | [] => ⟨[]⟩
  | header :: dataLines =>
    let names := mySplit header
    let rows := dataLines.map mySplit
    ⟨(List.range names.length).map (fun j =>
      let cells := rows.map (fun r => r.getD j [])
      (String.mk (names.getD j []), cells.map (parseCell (colIsNumeric cells))))⟩

/-- A text cell within the modelled CSV fragment: nonempty, free of
delimiter, quote and line-break characters, and not itself parseable as a
number (so the read column stays textual). -/
def safeStr (s : String) : Bool :=
  !s.data.isEmpty && !s.data.contains ',' && !s.data.contains '"' &&
    !s.data.contains '\n' && !s.data.contains '\r' &&
    !(pyFloatCore s.data).isSome

/-- A cell of a text column that round-trips. -/
def isStrCell : PVal → Bool
  | PVal.str s => safeStr s
  | _ => false

/-- A cell of a numeric column that round-trips: a number with a finite
decimal expansion, or null. -/
def isNumCell : PVal → Bool
  | PVal.num q => (decExp q.den).isSome
  | PVal.null => true
  | _ => false

/-- A column that round-trips: all text cells or all numeric/null cells. -/
def safeCol (cells : List PVal) : Bool :=
  cells.all isStrCell || cells.all isNumCell

/-- A column name within the modelled CSV fragment. -/
def safeName (s : String) : Bool :=
  !s.data.contains ',' && !s.data.contains '"' &&
    !s.data.contains '\n' && !s.data.contains '\r'

/-- A data frame whose CSV serialization is within the modelled fragment
and reads back without type coercion: at least one column, rectangular,
safe column names, and every column either textual or numeric. -/
def csvSafe (df : DataFrame) : Bool :=
  !df.cols.isEmpty &&
    df.cols.all (fun p =>
      safeName p.1 && p.2.length == nRows df && safeCol p.2)

/-! ### Concrete inputs used by counterexamples and witnesses -/

/-- A target table with one data row that has exactly two cells. -/
def twoCellDoc : List TableBody :=
  [⟨"By market capitalization", [["hdr"], ["2", "Bank B"]]⟩]

/-- A row whose market-cap cell has a thousands separator. -/
def commaRow : List String := ["1", "Bank X", "1,234.56"]

/-- The single table body of `sampleDoc`. -/
def sampleBody : TableBody :=
  ⟨"By market capitalization", [["hdr"], ["1", "Bank A", "432.92"], ["solo"]]⟩

/-- A document with one matching table body, a header row, a three-cell
row and a one-cell row. -/
def sampleDoc : List TableBody := [sampleBody]

/-- The first of the two matching table bodies of `dupDoc`. -/
def dupBodyA : TableBody := ⟨"By market capitalization", [["hdr"], ["1", "A", "10.0"]]⟩

/-- A document with two table bodies that both carry the target heading. -/
def dupDoc : List TableBody :=
  [dupBodyA, ⟨"By market capitalization", [["hdr"], ["1", "B", "20.0"]]⟩]

/-- The rate table of the concrete scenario of the specification. -/
def ratesABC : RateCsv :=
  ⟨["Currency", "Rates"], [("GBP", 4/5), ("EUR", 93/100), ("INR", 8295/100)]⟩

/-- A well-formed rate file that lacks the GBP currency. -/
def noGbpRates : RateCsv :=
  ⟨["Currency", "Rates"], [("EUR", 1), ("INR", 2)]⟩

/-- A well-formed rate file that lacks the EUR currency. -/
def noEurRates : RateCsv :=
  ⟨["Currency", "Rates"], [("GBP", 1), ("INR", 3)]⟩

/-- A well-formed rate file that lacks the INR currency. -/
def noInrRates : RateCsv :=
  ⟨["Currency", "Rates"], [("GBP", 1), ("EUR", 2)]⟩

/-- A rate file with integer rates for all three currencies. -/
def intRates : RateCsv :=
  ⟨["Currency", "Rates"], [("GBP", 1), ("EUR", 2), ("INR", 3)]⟩

/-- A small bank table used as the CSV round-trip witness. -/
def csvDf : DataFrame :=
  ⟨[("Name", [PVal.str "Bank A", PVal.str "Bank C"]),
    ("MC_USD_Billion", [PVal.num 100, PVal.null])]⟩

/-! ## Lemmas about the float parser -/

theorem mem_dropWhile_of_neg {α : Type} {p : α → Bool} {c : α} {l : List α}
    (h : c ∈ l) (hp : p c = false) : c ∈ l.dropWhile p := by
  induction l with
  | nil => cases h
  | cons x xs ih =>
    rw [List.dropWhile_cons]
    by_cases hx : p x
    · rw [if_pos hx]
      rcases List.mem_cons.mp h with rfl | hm
      · rw [hp] at hx; cases hx
      · exact ih hm
    · rw [if_neg hx]; exact h

theorem mem_pyStrip {c : Char} {l : List Char} (h : c ∈ l)
    (hw : c.isWhitespace = false) : c ∈ pyStrip l := by
  unfold pyStrip
  rw [List.mem_reverse]
  refine mem_dropWhile_of_neg ?_ hw
  rw [List.mem_reverse]
  exact mem_dropWhile_of_neg h hw

theorem mem_stripNewlines {c : Char} {l : List Char} (h : c ∈ l)
    (hn : c ≠ '\n') : c ∈ stripNewlines l := by
  unfold stripNewlines
  rw [List.mem_filter]
  exact ⟨h, by simpa using hn⟩

theorem pyExp_mem {m q : ℚ} {cs : List Char} (h : pyExp m cs = some q) :
    ∀ c ∈ cs, isFloatChar c = true := by
  intro c hc
  cases cs with
  | nil => cases h
  | cons x t =>
    unfold pyExp at h
    dsimp only at h
    by_cases hsgn : (x == '+' || x == '-') = true
    · rw [if_pos hsgn] at h
      split at h
      · cases h
      · rename_i hcond
        rw [Bool.or_eq_true, not_or] at hcond
        have hrest : t.dropWhile Char.isDigit = [] := by
          rcases hcond with ⟨_, h2⟩
          simpa using h2
        have hdig : ∀ a ∈ t, Char.isDigit a = true :=
          List.dropWhile_eq_nil_iff.mp hrest
        rcases List.mem_cons.mp hc with rfl | hm
        · simp only [Bool.or_eq_true, beq_iff_eq] at hsgn
          rcases hsgn with rfl | rfl <;> decide
        · simp [isFloatChar, hdig c hm]
    · rw [if_neg hsgn] at h
      split at h
      · cases h
      · rename_i hcond
        rw [Bool.or_eq_true, not_or] at hcond
        have hrest : (x :: t).dropWhile Char.isDigit = [] := by
          rcases hcond with ⟨_, h2⟩
          simpa using h2
        have hdig : ∀ a ∈ x :: t, Char.isDigit a = true :=
          List.dropWhile_eq_nil_iff.mp hrest
        simp [isFloatChar, hdig c hc]

theorem pyAfterSign_mem {sgn q : ℚ} {cs : List Char} (h : pyAfterSign sgn cs = some q) :
    ∀ c ∈ cs, isFloatChar c = true := by
  intro c hc
  have hsplit : cs.takeWhile Char.isDigit ++ cs.dropWhile Char.isDigit = cs :=
    List.takeWhile_append_dropWhile _ _
  unfold pyAfterSign at h
  dsimp only at h
  rcases List.mem_append.mp (hsplit ▸ hc) with hip | hrest
  · exact by simp [isFloatChar, List.mem_takeWhile_imp hip]
  · cases hd : cs.dropWhile Char.isDigit with
    | nil => rw [hd] at hrest; cases hrest
    | cons r rt =>
      rw [hd] at h hrest
      dsimp only at h
      by_cases hdot : (r == '.') = true
      · rw [if_pos hdot] at h
        have hr : r = '.' := by simpa using hdot
        have hsplit2 : rt.takeWhile Char.isDigit ++ rt.dropWhile Char.isDigit = rt :=
          List.takeWhile_append_dropWhile _ _
        rcases List.mem_cons.mp hrest with rfl | hm
        · simp [isFloatChar, hr]
        · split at h
          · cases h
          · rcases List.mem_append.mp (hsplit2 ▸ hm) with hfp | hrest2
            · exact by simp [isFloatChar, List.mem_takeWhile_imp hfp]
            · cases hd2 : rt.dropWhile Char.isDigit with
              | nil => rw [hd2] at hrest2; cases hrest2
              | cons r2 rt2 =>
                rw [hd2] at h hrest2
                dsimp only at h
                by_cases he : (r2 == 'e' || r2 == 'E') = true
                · rw [if_pos he] at h
                  rcases List.mem_cons.mp hrest2 with rfl | hm2
                  · simp only [Bool.or_eq_true, beq_iff_eq] at he
                    rcases he with rfl | rfl <;> decide
                  · exact pyExp_mem h c hm2
                · rw [if_neg he] at h; cases h
      · rw [if_neg hdot] at h
        by_cases he : ((r == 'e' || r == 'E') && !(cs.takeWhile Char.isDigit).isEmpty) = true
        · rw [if_pos he] at h
          rcases List.mem_cons.mp hrest with rfl | hm
          · have := (Bool.and_eq_true _ _).mp he
            rcases this with ⟨h1, _⟩
            simp only [Bool.or_eq_true, beq_iff_eq] at h1
            rcases h1 with rfl | rfl <;> decide
          · exact pyExp_mem h c hm
        · rw [if_neg he] at h; cases h

theorem pyFloatCore_mem {q : ℚ} {cs : List Char} (h : pyFloatCore cs = some q) :
    ∀ c ∈ cs, isFloatChar c = true := by
  intro c hc
  cases cs with
  | nil => cases hc
  | cons x t =>
    unfold pyFloatCore at h
    dsimp only at h
    by_cases h1 : (x == '+') = true
    · rw [if_pos h1] at h
      rcases List.mem_cons.mp hc with rfl | hm
      · simp [isFloatChar, h1]
      · exact pyAfterSign_mem h c hm
    · rw [if_neg h1] at h
      by_cases h2 : (x == '-') = true
      · rw [if_pos h2] at h
        rcases List.mem_cons.mp hc with rfl | hm
        · simp [isFloatChar, h2]
        · exact pyAfterSign_mem h c hm
      · rw [if_neg h2] at h
        exact pyAfterSign_mem h c hc

theorem pyFloatCore_eq_none_of_mem {cs : List Char} {c : Char} (hc : c ∈ cs)
    (hf : isFloatChar c = false) : pyFloatCore cs = none := by
  cases h : pyFloatCore cs with
  | none => rfl
  | some q => exact absurd (pyFloatCore_mem h c hc) (by simp [hf])

/-- The cleaning done by `extract` removes only whitespace and newlines, so
a comma in the market-cap cell reaches the float parser and makes it fail. -/
theorem pyFloat_comma_none {s : String} (h : ',' ∈ s.data) :
    pyFloat? (stripNewlinesStr (pyStripStr s)) = none := by
  unfold pyFloat? stripNewlinesStr pyStripStr
  apply pyFloatCore_eq_none_of_mem (c := ',')
  · apply mem_pyStrip _ (by decide)
    apply mem_stripNewlines _ (by decide)
    exact mem_pyStrip h (by decide)
  · decide

/-! ## Lemmas about the extractor -/

theorem extractRows_spec (rows : List (List String)) (h : ∀ r ∈ rows, r.length ≠ 2) :
    extractRows rows =
      .ok ((rows.filter (fun r => decide (3 ≤ r.length))).map rowRecord) := by
  induction rows with
  | nil => rfl
  | cons cols rest ih =>
    have hcols := h cols (List.mem_cons_self _ _)
    have hrest : ∀ r ∈ rest, r.length ≠ 2 := fun r hr => h r (List.mem_cons_of_mem _ hr)
    rw [extractRows]
    by_cases h2 : cols.length ≥ 2
    · have h3 : 2 < cols.length := by omega
      have hg : cols.get? 2 = some (cols.get ⟨2, h3⟩) := List.get?_eq_get h3
      rw [if_pos h2, hg, ih hrest, List.filter_cons, if_pos (by simpa using h3)]
      rfl
    · have h3 : ¬ (3 ≤ cols.length) := by omega
      rw [if_neg h2, ih hrest, List.filter_cons, if_neg (by simpa using h3)]

theorem extractRows_error_msg (rows : List (List String)) :
    ∀ e, extractRows rows = .error e → e = "IndexError: list index out of range" := by
  induction rows with
  | nil => intro e h; cases h
  | cons cols rest ih =>
    intro e h
    rw [extractRows] at h
    by_cases h2 : cols.length ≥ 2
    · rw [if_pos h2] at h
      cases hg : cols.get? 2 with
      | none => rw [hg] at h; cases h; rfl
      | some c =>
        rw [hg] at h
        cases he : extractRows rest with
        | ok recs => rw [he] at h; cases h
        | error e2 =>
          rw [he] at h
          cases h
          exact ih _ he
    · rw [if_neg h2] at h
      exact ih e h

theorem find?_eq_some_of_first {α : Type} (p : α → Bool) (l : List α) (i : Nat) (t : α)
    (hget : l.get? i = some t) (hp : p t = true)
    (hbefore : ∀ j u, j < i → l.get? j = some u → p u = false) :
    l.find? p = some t := by
  induction l generalizing i with
  | nil => cases hget
  | cons x xs ih =>
    cases i with
    | zero =>
      cases hget
      rw [List.find?_cons_of_pos _ hp]
    | succ n =>
      have hx : p x = false := hbefore 0 x (Nat.succ_pos n) rfl
      rw [List.find?_cons_of_neg _ (by simp [hx])]
      exact ih n hget (fun j u hj hg => hbefore (j + 1) u (by omega) hg)

/-! ## Claim theorems for the extractor -/

/-- C1 (counterexample): the claim says every non-header row with at least
two cells yields exactly one record, so on a target table whose single
data row has exactly two cells `extract` would emit a one-row table; the
code instead reads the third cell of that row and raises an IndexError,
emitting no table at all. -/
theorem extract_two_cell_row_crashes :
    extract twoCellDoc = .error "IndexError: list index out of range" ∧
    (([["hdr"], ["2", "Bank B"]].drop 1).filter
        (fun r => decide (2 ≤ r.length))).length = 1 := by
  constructor
  · rfl
  · rfl

/-- C1 (amended): for every non-header row of the target table with at
least three cells, `extract` emits exactly one record, in document order,
whose name is the stripped second cell and whose market cap is the parse
of the cleaned third cell; rows with fewer than two cells are skipped; and
provided no row has exactly two cells (which would raise an IndexError),
the output row count equals the number of rows with at least two cells. -/
theorem extract_row_emission (doc : List TableBody) (t : TableBody)
    (h1 : findTargetTable doc = some t)
    (h2 : ∀ r ∈ t.rows.drop 1, r.length ≠ 2) :
    extract doc =
      .ok (((t.rows.drop 1).filter (fun r => decide (3 ≤ r.length))).map rowRecord) ∧
    (((t.rows.drop 1).filter (fun r => decide (3 ≤ r.length))).map rowRecord).length =
      ((t.rows.drop 1).filter (fun r => decide (2 ≤ r.length))).length := by
  constructor
  · rw [extract, h1]
    exact extractRows_spec _ h2
  · rw [List.length_map]
    congr 1
    apply List.filter_congr
    intro r hr
    have := h2 r hr
    simp only [decide_eq_decide]
    omega

/-- Witness for `extract_row_emission` at a concrete document with a
header row, a three-cell row and a one-cell row. -/
theorem extract_row_emission_witness :
    extract sampleDoc =
      .ok (((sampleBody.rows.drop 1).filter
          (fun r => decide (3 ≤ r.length))).map rowRecord) ∧
    (((sampleBody.rows.drop 1).filter
          (fun r => decide (3 ≤ r.length))).map rowRecord).length =
      ((sampleBody.rows.drop 1).filter
          (fun r => decide (2 ≤ r.length))).length :=
  extract_row_emission sampleDoc sampleBody (by decide) (by decide)

/-- C4: `extract` raises its ValueError exactly when no table body has the
target heading label; and when table bodies with the target label exist,
the first one in document order is the one processed. -/
theorem extract_table_selection (doc : List TableBody) :
    (extract doc = .error "Could not find the target table on the page." ↔
      ∀ t ∈ doc, ¬ t.heading = targetHeading) ∧
    (∀ i t, doc.get? i = some t → t.heading = targetHeading →
      (∀ j u, j < i → doc.get? j = some u → ¬ u.heading = targetHeading) →
      extract doc = extractRows (t.rows.drop 1)) := by
  constructor
  · constructor
    · intro h t ht hteq
      cases hu : findTargetTable doc with
      | none =>
        have := List.find?_eq_none.mp hu t ht
        simp [hteq] at this
      | some u =>
        rw [extract, hu] at h
        exact absurd (extractRows_error_msg _ _ h) (by decide)
    · intro hall
      have hnone : findTargetTable doc = none :=
        List.find?_eq_none.mpr (fun t ht => by simp [hall t ht])
      rw [extract, hnone]
  · intro i t hget hp hbefore
    have hfound : findTargetTable doc = some t :=
      find?_eq_some_of_first _ _ i t hget (by simp [hp])
        (fun j u hj hg => by simp [hbefore j u hj hg])
    rw [extract, hfound]

/-- Witness for `extract_table_selection`: a document with two matching
table bodies; the first one is selected, and the error case is
characterized. -/
theorem extract_table_selection_witness :
    (extract dupDoc = .error "Could not find the target table on the page." ↔
      ∀ t ∈ dupDoc, ¬ t.heading = targetHeading) ∧
    extract dupDoc = extractRows (dupBodyA.rows.drop 1) :=
  ⟨(extract_table_selection dupDoc).1,
   (extract_table_selection dupDoc).2 0 dupBodyA (by decide) (by decide)
     (fun j u hj _ => absurd hj (Nat.not_lt_zero j))⟩

/-- C9: the cleaning before the float conversion removes only surrounding
whitespace and embedded newlines, so a third cell containing a comma (for
instance a thousands separator) always yields a record with a null market
cap, while the row itself is kept. -/
theorem extract_comma_cell_null (cols : List String) (rest : List (List String))
    (c : String) (h1 : cols.get? 2 = some c) (h2 : ',' ∈ c.data) :
    (rowRecord cols).mc_usd = none ∧
    extractRows (cols :: rest) =
      (extractRows rest).map (fun recs => rowRecord cols :: recs) := by
  have hlen : 2 < cols.length := by
    rcases List.get?_eq_some.mp h1 with ⟨hl, _⟩
    exact hl
  refine ⟨?_, ?_⟩
  · rw [rowRecord, h1]
    exact pyFloat_comma_none h2
  · rw [extractRows, if_pos (by omega), h1]

/-- Witness for `extract_comma_cell_null` at the cell "1,234.56". -/
theorem extract_comma_cell_null_witness :
    (rowRecord commaRow).mc_usd = none ∧
    extractRows [commaRow] =
      (extractRows []).map (fun recs => rowRecord commaRow :: recs) :=
  extract_comma_cell_null _ _ "1,234.56" rfl (by decide)

/-! ## Lemmas about the transformer -/

theorem mcCell_true : mcCell true = toPVal := by
  funext o
  cases o <;> rfl

theorem mkBankDf_eq_numBankDf {recs : List BankRecord}
    (h : numericTable recs = true) : mkBankDf recs = numBankDf recs := by
  rw [numericTable, Bool.or_eq_true] at h
  rcases h with h | h
  · have hnil : recs = [] := by simpa using h
    subst hnil
    rfl
  · simp only [mkBankDf, numBankDf, h, mcCell_true]

theorem deriveVal_lookup_none {rates : List (String × ℚ)} {cur : String}
    (h : rateLookup rates cur = none) (v : PVal) :
    deriveVal rates cur v = .error ("KeyError: " ++ cur) := by
  cases v <;> simp [deriveVal, h]

theorem deriveCol_map (rates : List (String × ℚ)) (cur : String) (r : ℚ)
    (h : rateLookup rates cur = some r) (l : List BankRecord) :
    deriveCol rates cur (l.map (fun rec => toPVal rec.mc_usd)) =
      .ok (l.map (fun rec => toPVal (rec.mc_usd.map (fun q => npRound2 (q * r))))) := by
  induction l with
  | nil => rfl
  | cons rec rest ih =>
    rw [List.map_cons, List.map_cons, deriveCol]
    cases hmc : rec.mc_usd with
    | none => rw [ih]; simp [toPVal, deriveVal, h]
    | some q => rw [ih]; simp [toPVal, deriveVal, h]

theorem transform_numBankDf (recs : List BankRecord) (f : RateCsv)
    (hC : "Currency" ∈ f.header) (hR : "Rates" ∈ f.header)
    (rG rE rI : ℚ)
    (hG : rateLookup f.rows "GBP" = some rG)
    (hE : rateLookup f.rows "EUR" = some rE)
    (hI : rateLookup f.rows "INR" = some rI) :
    transform (numBankDf recs) (some f) = .ok (transformedDf recs rG rE rI) := by
  have hload : loadRates (some f) = .ok f.rows := by
    simp [loadRates, hC, hR]
  have h1 : getColE (numBankDf recs) "MC_USD_Billion" =
      .ok (recs.map (fun rec => toPVal rec.mc_usd)) := rfl
  rw [transform, hload]
  dsimp only
  rw [h1]
  dsimp only
  rw [deriveCol_map _ _ _ hG]
  dsimp only
  rw [show getColE (DataFrame.setCol (numBankDf recs) "MC_GBP_Billion"
      (recs.map (fun rec => toPVal (rec.mc_usd.map (fun q => npRound2 (q * rG))))))
      "MC_USD_Billion" = .ok (recs.map (fun rec => toPVal rec.mc_usd)) from rfl]
  dsimp only
  rw [deriveCol_map _ _ _ hE]
  dsimp only
  rw [show getColE (DataFrame.setCol (DataFrame.setCol (numBankDf recs) "MC_GBP_Billion"
      (recs.map (fun rec => toPVal (rec.mc_usd.map (fun q => npRound2 (q * rG))))))
      "MC_EUR_Billion"
      (recs.map (fun rec => toPVal (rec.mc_usd.map (fun q => npRound2 (q * rE))))))
      "MC_USD_Billion" = .ok (recs.map (fun rec => toPVal rec.mc_usd)) from rfl]
  dsimp only
  rw [deriveCol_map _ _ _ hI]
  rfl

theorem transform_mkBankDf (recs : List BankRecord) (f : RateCsv)
    (hC : "Currency" ∈ f.header) (hR : "Rates" ∈ f.header)
    (rG rE rI : ℚ)
    (hG : rateLookup f.rows "GBP" = some rG)
    (hE : rateLookup f.rows "EUR" = some rE)
    (hI : rateLookup f.rows "INR" = some rI)
    (hNum : numericTable recs = true) :
    transform (mkBankDf recs) (some f) = .ok (transformedDf recs rG rE rI) := by
  rw [mkBankDf_eq_numBankDf hNum]
  exact transform_numBankDf recs f hC hR rG rE rI hG hE hI

theorem transform_fixpoint (recs : List BankRecord) (f : RateCsv)
    (hC : "Currency" ∈ f.header) (hR : "Rates" ∈ f.header)
    (rG rE rI : ℚ)
    (hG : rateLookup f.rows "GBP" = some rG)
    (hE : rateLookup f.rows "EUR" = some rE)
    (hI : rateLookup f.rows "INR" = some rI) :
    transform (transformedDf recs rG rE rI) (some f) =
      .ok (transformedDf recs rG rE rI) := by
  have hload : loadRates (some f) = .ok f.rows := by
    simp [loadRates, hC, hR]
  have h1 : getColE (transformedDf recs rG rE rI) "MC_USD_Billion" =
      .ok (recs.map (fun rec => toPVal rec.mc_usd)) := rfl
  rw [transform, hload]
  dsimp only
  rw [h1]
  dsimp only
  rw [deriveCol_map _ _ _ hG]
  dsimp only
  rw [show getColE (DataFrame.setCol (transformedDf recs rG rE rI) "MC_GBP_Billion"
      (recs.map (fun rec => toPVal (rec.mc_usd.map (fun q => npRound2 (q * rG))))))
      "MC_USD_Billion" = .ok (recs.map (fun rec => toPVal rec.mc_usd)) from rfl]
  dsimp only
  rw [deriveCol_map _ _ _ hE]
  dsimp only
  rw [show getColE (DataFrame.setCol (DataFrame.setCol (transformedDf recs rG rE rI)
      "MC_GBP_Billion"
      (recs.map (fun rec => toPVal (rec.mc_usd.map (fun q => npRound2 (q * rG))))))
      "MC_EUR_Billion"
      (recs.map (fun rec => toPVal (rec.mc_usd.map (fun q => npRound2 (q * rE))))))
      "MC_USD_Billion" = .ok (recs.map (fun rec => toPVal rec.mc_usd)) from rfl]
  dsimp only
  rw [deriveCol_map _ _ _ hI]
  rfl

theorem deriveCol_error_typeerror {rates : List (String × ℚ)} {cur : String}
    {r : ℚ} (h : rateLookup rates cur = some r) :
    ∀ vs e, deriveCol rates cur vs = .error e →
      e = "TypeError: unsupported operand type" := by
  intro vs
  induction vs with
  | nil => intro e he; cases he
  | cons v t ih =>
    intro e he
    rw [deriveCol] at he
    cases v with
    | num q =>
      rw [show deriveVal rates cur (PVal.num q) =
          .ok (PVal.num (npRound2 (q * r))) by simp [deriveVal, h]] at he
      dsimp only at he
      cases hd : deriveCol rates cur t with
      | ok ws => rw [hd] at he; cases he
      | error e2 =>
        rw [hd] at he
        cases he
        exact ih _ hd
    | null =>
      rw [show deriveVal rates cur PVal.null = .ok PVal.null
          by simp [deriveVal, h]] at he
      dsimp only at he
      cases hd : deriveCol rates cur t with
      | ok ws => rw [hd] at he; cases he
      | error e2 =>
        rw [hd] at he
        cases he
        exact ih _ hd
    | pyNone =>
      rw [show deriveVal rates cur PVal.pyNone =
          .error "TypeError: unsupported operand type" by simp [deriveVal, h]] at he
      cases he
      rfl
    | str s =>
      rw [show deriveVal rates cur (PVal.str s) =
          .error "TypeError: unsupported operand type" by simp [deriveVal, h]] at he
      cases he
      rfl

theorem transform_error_classify (recs : List BankRecord) (f : RateCsv)
    (hC : "Currency" ∈ f.header) (hR : "Rates" ∈ f.header)
    (rG rE rI : ℚ)
    (hG : rateLookup f.rows "GBP" = some rG)
    (hE : rateLookup f.rows "EUR" = some rE)
    (hI : rateLookup f.rows "INR" = some rI) :
    ∀ e, transform (mkBankDf recs) (some f) = .error e →
      e = "TypeError: unsupported operand type" := by
  intro e he
  have hload : loadRates (some f) = .ok f.rows := by simp [loadRates, hC, hR]
  obtain ⟨mc, hmc⟩ : ∃ mc, recs.map
      (fun rec => mcCell (recs.any (fun r => r.mc_usd.isSome)) rec.mc_usd) = mc :=
    ⟨_, rfl⟩
  have hcol1 : getColE (mkBankDf recs) "MC_USD_Billion" = .ok mc := by
    rw [← hmc]
    rfl
  rw [transform, hload] at he
  dsimp only at he
  rw [hcol1] at he
  dsimp only at he
  cases hd1 : deriveCol f.rows "GBP" mc with
  | error e1 =>
    rw [hd1] at he
    cases he
    exact deriveCol_error_typeerror hG _ _ hd1
  | ok g =>
    rw [hd1] at he
    dsimp only at he
    have hcol2 : getColE (DataFrame.setCol (mkBankDf recs) "MC_GBP_Billion" g)
        "MC_USD_Billion" = .ok mc := by
      rw [← hmc]
      rfl
    rw [hcol2] at he
    dsimp only at he
    cases hd2 : deriveCol f.rows "EUR" mc with
    | error e2 =>
      rw [hd2] at he
      cases he
      exact deriveCol_error_typeerror hE _ _ hd2
    | ok u =>
      rw [hd2] at he
      dsimp only at he
      have hcol3 : getColE (DataFrame.setCol (DataFrame.setCol (mkBankDf recs)
          "MC_GBP_Billion" g) "MC_EUR_Billion" u) "MC_USD_Billion" = .ok mc := by
        rw [← hmc]
        rfl
      rw [hcol3] at he
      dsimp only at he
      cases hd3 : deriveCol f.rows "INR" mc with
      | error e3 =>
        rw [hd3] at he
        cases he
        exact deriveCol_error_typeerror hI _ _ hd3
      | ok w =>
        rw [hd3] at he
        cases he

/-! ## Claim theorems for the transformer -/

/-- C2 (counterexample): a non-empty table whose market caps are all
null — here the single record a row with the market-cap cell "N/A"
produces — keeps the Python None objects in its market-cap column
(object dtype), and `transform` raises a TypeError from multiplying None
by the rate, instead of succeeding with null derived cells. -/
theorem transform_all_null_table_crashes :
    transform (mkBankDf [⟨"Bank C", none⟩]) (some intRates) =
      .error "TypeError: unsupported operand type" := rfl

/-- C2 (amended): for every record whose market cap is null, `transform`
succeeds and sets the three derived currency cells of that record to
null, provided some record of the table has a numeric market cap, so that
the column is numeric and stores the absent values as NaN; in a non-empty
table with no numeric market cap the column keeps Python None and
`transform` raises a TypeError instead. -/
theorem transform_null_propagates (recs : List BankRecord) (f : RateCsv)
    (hC : "Currency" ∈ f.header) (hR : "Rates" ∈ f.header)
    (rG rE rI : ℚ)
    (hG : rateLookup f.rows "GBP" = some rG)
    (hE : rateLookup f.rows "EUR" = some rE)
    (hI : rateLookup f.rows "INR" = some rI)
    (hAny : recs.any (fun r => r.mc_usd.isSome) = true)
    (i : Nat) (rec : BankRecord)
    (hrec : recs[i]? = some rec) (hnull : rec.mc_usd = none) :
    ∃ df', transform (mkBankDf recs) (some f) = .ok df' ∧
      df'.cellAt "MC_GBP_Billion" i = some PVal.null ∧
      df'.cellAt "MC_EUR_Billion" i = some PVal.null ∧
      df'.cellAt "MC_INR_Billion" i = some PVal.null := by
  have hNum : numericTable recs = true := by
    rw [numericTable, Bool.or_eq_true]
    exact Or.inr hAny
  refine ⟨_, transform_mkBankDf recs f hC hR rG rE rI hG hE hI hNum, ?_, ?_, ?_⟩ <;>
    simp [DataFrame.cellAt, DataFrame.getCol, transformedDf, List.getElem?_map,
      hrec, hnull, toPVal]

/-- Witness for `transform_null_propagates`: a table with one numeric
record and one record parsed from an "N/A" market-cap cell. -/
theorem transform_null_propagates_witness :
    ∃ df', transform (mkBankDf [⟨"Bank A", some 100⟩, ⟨"Bank C", none⟩])
        (some ratesABC) = .ok df' ∧
      df'.cellAt "MC_GBP_Billion" 1 = some PVal.null ∧
      df'.cellAt "MC_EUR_Billion" 1 = some PVal.null ∧
      df'.cellAt "MC_INR_Billion" 1 = some PVal.null :=
  transform_null_propagates [⟨"Bank A", some 100⟩, ⟨"Bank C", none⟩] ratesABC
    (by decide) (by decide) (4/5) (93/100) (8295/100) rfl rfl rfl
    (by decide) 1 ⟨"Bank C", none⟩ rfl rfl

/-- C3: for a bank table that is empty or has some numeric market cap
(in particular any table containing a record with a non-null market cap),
`transform` appends exactly the three derived columns after the original
columns, in the order GBP, EUR, INR, and every record with a non-null
market cap gets `round(mc_usd * rate, 2)` in each derived cell. -/
theorem transform_derived_columns (recs : List BankRecord) (f : RateCsv)
    (hC : "Currency" ∈ f.header) (hR : "Rates" ∈ f.header)
    (rG rE rI : ℚ)
    (hG : rateLookup f.rows "GBP" = some rG)
    (hE : rateLookup f.rows "EUR" = some rE)
    (hI : rateLookup f.rows "INR" = some rI)
    (hNum : numericTable recs = true) :
    ∃ df', transform (mkBankDf recs) (some f) = .ok df' ∧
      df'.cols.map Prod.fst =
        ["Name", "MC_USD_Billion", "MC_GBP_Billion", "MC_EUR_Billion",
          "MC_INR_Billion"] ∧
      ∀ i rec q, recs[i]? = some rec → rec.mc_usd = some q →
        df'.cellAt "MC_GBP_Billion" i = some (PVal.num (npRound2 (q * rG))) ∧
        df'.cellAt "MC_EUR_Billion" i = some (PVal.num (npRound2 (q * rE))) ∧
        df'.cellAt "MC_INR_Billion" i = some (PVal.num (npRound2 (q * rI))) := by
  refine ⟨_, transform_mkBankDf recs f hC hR rG rE rI hG hE hI hNum, rfl, ?_⟩
  intro i rec q hrec hq
  refine ⟨?_, ?_, ?_⟩ <;>
    simp [DataFrame.cellAt, DataFrame.getCol, transformedDf, List.getElem?_map,
      hrec, hq, toPVal]

/-- Witness for `transform_derived_columns`: the concrete scenario of the
specification, with the derived values evaluated. -/
theorem transform_derived_columns_witness :
    (∃ df', transform (mkBankDf [⟨"Bank A", some 100⟩]) (some ratesABC) = .ok df' ∧
      df'.cellAt "MC_GBP_Billion" 0 = some (PVal.num 80) ∧
      df'.cellAt "MC_EUR_Billion" 0 = some (PVal.num 93) ∧
      df'.cellAt "MC_INR_Billion" 0 = some (PVal.num 8295)) := by
  obtain ⟨df', h1, _, h3⟩ :=
    transform_derived_columns [⟨"Bank A", some 100⟩] ratesABC (by decide) (by decide)
      (4/5) (93/100) (8295/100) rfl rfl rfl (by decide)
  obtain ⟨hg, he, hi⟩ := h3 0 ⟨"Bank A", some 100⟩ 100 rfl rfl
  refine ⟨df', h1, ?_, ?_, ?_⟩
  · rw [hg]; norm_num [npRound2, roundHalfEven]
  · rw [he]; norm_num [npRound2, roundHalfEven]
  · rw [hi]; norm_num [npRound2, roundHalfEven]

/-- C8: `transform` is idempotent on the derived columns: on a bank table
that is empty or has some numeric market cap (so that the first transform
completes), transforming the already transformed table with the same rate
file leaves the three derived columns identical. -/
theorem transform_idempotent (recs : List BankRecord) (f : RateCsv)
    (hC : "Currency" ∈ f.header) (hR : "Rates" ∈ f.header)
    (rG rE rI : ℚ)
    (hG : rateLookup f.rows "GBP" = some rG)
    (hE : rateLookup f.rows "EUR" = some rE)
    (hI : rateLookup f.rows "INR" = some rI)
    (hNum : numericTable recs = true) :
    ∃ df₁ df₂, transform (mkBankDf recs) (some f) = .ok df₁ ∧
      transform df₁ (some f) = .ok df₂ ∧
      df₂.getCol "MC_GBP_Billion" = df₁.getCol "MC_GBP_Billion" ∧
      df₂.getCol "MC_EUR_Billion" = df₁.getCol "MC_EUR_Billion" ∧
      df₂.getCol "MC_INR_Billion" = df₁.getCol "MC_INR_Billion" :=
  ⟨_, _, transform_mkBankDf recs f hC hR rG rE rI hG hE hI hNum,
    transform_fixpoint recs f hC hR rG rE rI hG hE hI, rfl, rfl, rfl⟩

/-- Witness for `transform_idempotent` at the concrete scenario. -/
theorem transform_idempotent_witness :
    ∃ df₁ df₂,
      transform (mkBankDf [⟨"Bank A", some 100⟩]) (some ratesABC) = .ok df₁ ∧
      transform df₁ (some ratesABC) = .ok df₂ ∧
      df₂.getCol "MC_GBP_Billion" = df₁.getCol "MC_GBP_Billion" ∧
      df₂.getCol "MC_EUR_Billion" = df₁.getCol "MC_EUR_Billion" ∧
      df₂.getCol "MC_INR_Billion" = df₁.getCol "MC_INR_Billion" :=
  transform_idempotent [⟨"Bank A", some 100⟩] ratesABC (by decide) (by decide)
    (4/5) (93/100) (8295/100) rfl rfl rfl (by decide)

/-- C10: on a bank table that is empty or has some numeric market cap (so
that `transform` completes), `transform` never changes the existing
columns: the Name and MC_USD_Billion columns are unchanged, the new
column names come after all original ones, and every column keeps one
value per input record. -/
theorem transform_preserves_input (recs : List BankRecord) (f : RateCsv)
    (hC : "Currency" ∈ f.header) (hR : "Rates" ∈ f.header)
    (rG rE rI : ℚ)
    (hG : rateLookup f.rows "GBP" = some rG)
    (hE : rateLookup f.rows "EUR" = some rE)
    (hI : rateLookup f.rows "INR" = some rI)
    (hNum : numericTable recs = true) :
    ∃ df', transform (mkBankDf recs) (some f) = .ok df' ∧
      df'.getCol "Name" = (mkBankDf recs).getCol "Name" ∧
      df'.getCol "MC_USD_Billion" = (mkBankDf recs).getCol "MC_USD_Billion" ∧
      df'.cols.map Prod.fst =
        (mkBankDf recs).cols.map Prod.fst ++
          ["MC_GBP_Billion", "MC_EUR_Billion", "MC_INR_Billion"] ∧
      ∀ p ∈ df'.cols, p.2.length = recs.length := by
  rw [mkBankDf_eq_numBankDf hNum]
  refine ⟨_, transform_numBankDf recs f hC hR rG rE rI hG hE hI, rfl, rfl, rfl, ?_⟩
  intro p hp
  simp only [transformedDf, List.mem_cons, List.not_mem_nil, or_false] at hp
  rcases hp with rfl | rfl | rfl | rfl | rfl <;> simp

/-- Witness for `transform_preserves_input` at the concrete scenario. -/
theorem transform_preserves_input_witness :
    ∃ df',
      transform (mkBankDf [⟨"Bank A", some 100⟩, ⟨"Bank C", none⟩])
        (some ratesABC) = .ok df' ∧
      df'.getCol "Name" =
        (mkBankDf [⟨"Bank A", some 100⟩, ⟨"Bank C", none⟩]).getCol "Name" ∧
      df'.getCol "MC_USD_Billion" =
        (mkBankDf [⟨"Bank A", some 100⟩, ⟨"Bank C", none⟩]).getCol "MC_USD_Billion" ∧
      df'.cols.map Prod.fst =
        (mkBankDf [⟨"Bank A", some 100⟩, ⟨"Bank C", none⟩]).cols.map Prod.fst ++
          ["MC_GBP_Billion", "MC_EUR_Billion", "MC_INR_Billion"] ∧
      ∀ p ∈ df'.cols, p.2.length =
        [(⟨"Bank A", some 100⟩ : BankRecord), ⟨"Bank C", none⟩].length :=
  transform_preserves_input [⟨"Bank A", some 100⟩, ⟨"Bank C", none⟩] ratesABC
    (by decide) (by decide) (4/5) (93/100) (8295/100) rfl rfl rfl (by decide)

/-- C5 (counterexample): when the bank table has no record, the body of
the derivation comprehension never runs, so the missing GBP currency
raises no KeyError and `transform` succeeds, contrary to the claim that a
missing currency always fails. -/
theorem transform_missing_currency_empty_table_ok :
    transform (mkBankDf []) (some noGbpRates) =
      .ok ⟨[("Name", []), ("MC_USD_Billion", []), ("MC_GBP_Billion", []),
            ("MC_EUR_Billion", []), ("MC_INR_Billion", [])]⟩ := rfl

/-- C5 (amended): `transform` fails with FileNotFoundError when the rate
source is missing and with a KeyError on a missing Currency or Rates
column; with both columns present, a missing GBP raises its KeyError as
soon as the table has a record, and a missing EUR or INR raises its
KeyError when some market cap is numeric (on an all-null table the GBP
derivation raises a TypeError first); with both columns and all three
currencies present, `transform` does not fail for these reasons — the
only failure left is the TypeError of an all-null market-cap column —
and it succeeds on every table that is empty or has a numeric market
cap. -/
theorem transform_config_errors :
    (∀ df, transform df none = .error "FileNotFoundError") ∧
    (∀ df f, "Currency" ∉ f.header →
      transform df (some f) = .error "KeyError: Currency") ∧
    (∀ df f, "Currency" ∈ f.header → "Rates" ∉ f.header →
      transform df (some f) = .error "KeyError: Rates") ∧
    (∀ recs f, "Currency" ∈ f.header → "Rates" ∈ f.header →
      recs ≠ [] → rateLookup f.rows "GBP" = none →
      transform (mkBankDf recs) (some f) = .error "KeyError: GBP") ∧
    (∀ recs f rG, "Currency" ∈ f.header → "Rates" ∈ f.header →
      recs.any (fun r => r.mc_usd.isSome) = true →
      rateLookup f.rows "GBP" = some rG → rateLookup f.rows "EUR" = none →
      transform (mkBankDf recs) (some f) = .error "KeyError: EUR") ∧
    (∀ recs f rG rE, "Currency" ∈ f.header → "Rates" ∈ f.header →
      recs.any (fun r => r.mc_usd.isSome) = true →
      rateLookup f.rows "GBP" = some rG →
      rateLookup f.rows "EUR" = some rE → rateLookup f.rows "INR" = none →
      transform (mkBankDf recs) (some f) = .error "KeyError: INR") ∧
    (∀ recs f rG rE rI, "Currency" ∈ f.header → "Rates" ∈ f.header →
      rateLookup f.rows "GBP" = some rG → rateLookup f.rows "EUR" = some rE →
      rateLookup f.rows "INR" = some rI →
      ∀ e, transform (mkBankDf recs) (some f) = .error e →
        e = "TypeError: unsupported operand type") ∧
    (∀ recs f rG rE rI, "Currency" ∈ f.header → "Rates" ∈ f.header →
      rateLookup f.rows "GBP" = some rG → rateLookup f.rows "EUR" = some rE →
      rateLookup f.rows "INR" = some rI → numericTable recs = true →
      ∃ df', transform (mkBankDf recs) (some f) = .ok df') := by
  refine ⟨fun df => rfl, ?_, ?_, ?_, ?_, ?_, ?_, ?_⟩
  · intro df f h
    have hload : loadRates (some f) = .error "KeyError: Currency" := by
      simp [loadRates, h]
    rw [transform, hload]
  · intro df f hC h
    have hload : loadRates (some f) = .error "KeyError: Rates" := by
      simp [loadRates, hC, h]
    rw [transform, hload]
  · intro recs f hC hR hne hG
    rcases List.exists_cons_of_ne_nil hne with ⟨r, rest, rfl⟩
    have hload : loadRates (some f) = .ok f.rows := by simp [loadRates, hC, hR]
    obtain ⟨A, hA⟩ : ∃ A, (r :: rest).any (fun x => x.mc_usd.isSome) = A := ⟨_, rfl⟩
    have hcol : getColE (mkBankDf (r :: rest)) "MC_USD_Billion" =
        .ok ((r :: rest).map (fun rec => mcCell A rec.mc_usd)) := by
      rw [← hA]
      rfl
    have hder : deriveCol f.rows "GBP"
        ((r :: rest).map (fun rec => mcCell A rec.mc_usd)) =
        .error "KeyError: GBP" := by
      rw [List.map_cons, deriveCol, deriveVal_lookup_none hG]
      rfl
    rw [transform, hload]
    dsimp only
    rw [hcol]
    dsimp only
    rw [hder]
  · intro recs f rG hC hR hAny hG hEn
    have hNum : numericTable recs = true := by
      rw [numericTable, Bool.or_eq_true]
      exact Or.inr hAny
    have hne : recs ≠ [] := by
      intro h0
      rw [h0] at hAny
      cases hAny
    rw [mkBankDf_eq_numBankDf hNum]
    rcases List.exists_cons_of_ne_nil hne with ⟨r, rest, rfl⟩
    have hload : loadRates (some f) = .ok f.rows := by simp [loadRates, hC, hR]
    have hder : deriveCol f.rows "EUR"
        ((r :: rest).map (fun rec => toPVal rec.mc_usd)) =
        .error "KeyError: EUR" := by
      rw [List.map_cons, deriveCol, deriveVal_lookup_none hEn]
      rfl
    rw [transform, hload]
    dsimp only
    rw [show getColE (numBankDf (r :: rest)) "MC_USD_Billion" =
        .ok ((r :: rest).map (fun rec => toPVal rec.mc_usd)) from rfl]
    dsimp only
    rw [deriveCol_map _ _ _ hG]
    dsimp only
    rw [show getColE (DataFrame.setCol (numBankDf (r :: rest)) "MC_GBP_Billion"
        ((r :: rest).map (fun rec =>
          toPVal (rec.mc_usd.map (fun q => npRound2 (q * rG))))))
        "MC_USD_Billion" =
        .ok ((r :: rest).map (fun rec => toPVal rec.mc_usd)) from rfl]
    dsimp only
    rw [hder]
  · intro recs f rG rE hC hR hAny hG hE hIn
    have hNum : numericTable recs = true := by
      rw [numericTable, Bool.or_eq_true]
      exact Or.inr hAny
    have hne : recs ≠ [] := by
      intro h0
      rw [h0] at hAny
      cases hAny
    rw [mkBankDf_eq_numBankDf hNum]
    rcases List.exists_cons_of_ne_nil hne with ⟨r, rest, rfl⟩
    have hload : loadRates (some f) = .ok f.rows := by simp [loadRates, hC, hR]
    have hder : deriveCol f.rows "INR"
        ((r :: rest).map (fun rec => toPVal rec.mc_usd)) =
        .error "KeyError: INR" := by
      rw [List.map_cons, deriveCol, deriveVal_lookup_none hIn]
      rfl
    rw [transform, hload]
    dsimp only
    rw [show getColE (numBankDf (r :: rest)) "MC_USD_Billion" =
        .ok ((r :: rest).map (fun rec => toPVal rec.mc_usd)) from rfl]
    dsimp only
    rw [deriveCol_map _ _ _ hG]
    dsimp only
    rw [show getColE (DataFrame.setCol (numBankDf (r :: rest)) "MC_GBP_Billion"
        ((r :: rest).map (fun rec =>
          toPVal (rec.mc_usd.map (fun q => npRound2 (q * rG))))))
        "MC_USD_Billion" =
        .ok ((r :: rest).map (fun rec => toPVal rec.mc_usd)) from rfl]
    dsimp only
    rw [deriveCol_map _ _ _ hE]
    dsimp only
    rw [show getColE (DataFrame.setCol (DataFrame.setCol (numBankDf (r :: rest))
        "MC_GBP_Billion"
        ((r :: rest).map (fun rec =>
          toPVal (rec.mc_usd.map (fun q => npRound2 (q * rG))))))
        "MC_EUR_Billion"
        ((r :: rest).map (fun rec =>
          toPVal (rec.mc_usd.map (fun q => npRound2 (q * rE))))))
        "MC_USD_Billion" =
        .ok ((r :: rest).map (fun rec => toPVal rec.mc_usd)) from rfl]
    dsimp only
    rw [hder]
  · intro recs f rG rE rI hC hR hG hE hI
    exact transform_error_classify recs f hC hR rG rE rI hG hE hI
  · intro recs f rG rE rI hC hR hG hE hI hNum
    exact ⟨_, transform_mkBankDf recs f hC hR rG rE rI hG hE hI hNum⟩

/-- Witness for `transform_config_errors` at concrete inputs for each
failure kind, for the error classification at the crashing all-null
table, and for the success case. -/
theorem transform_config_errors_witness :
    transform (mkBankDf [⟨"B", some 1⟩]) none = .error "FileNotFoundError" ∧
    transform (mkBankDf [⟨"B", some 1⟩]) (some ⟨["Rates"], []⟩) =
      .error "KeyError: Currency" ∧
    transform (mkBankDf [⟨"B", some 1⟩]) (some ⟨["Currency"], []⟩) =
      .error "KeyError: Rates" ∧
    transform (mkBankDf [⟨"B", some 1⟩]) (some noGbpRates) =
      .error "KeyError: GBP" ∧
    transform (mkBankDf [⟨"B", some 1⟩]) (some noEurRates) =
      .error "KeyError: EUR" ∧
    transform (mkBankDf [⟨"B", some 1⟩]) (some noInrRates) =
      .error "KeyError: INR" ∧
    transform (mkBankDf [⟨"Bank C", none⟩]) (some intRates) ≠
      .error "KeyError: GBP" ∧
    (∃ df', transform (mkBankDf [⟨"B", some 1⟩]) (some ratesABC) = .ok df') := by
  obtain ⟨h1, h2, h3, h4, h5, h6, h7, h8⟩ := transform_config_errors
  refine ⟨h1 _, h2 _ _ (by decide), h3 _ _ (by decide) (by decide),
    h4 [⟨"B", some 1⟩] noGbpRates (by decide) (by decide)
      (List.cons_ne_nil _ _) rfl,
    h5 [⟨"B", some 1⟩] noEurRates 1 (by decide) (by decide) (by decide) rfl rfl,
    h6 [⟨"B", some 1⟩] noInrRates 1 2 (by decide) (by decide) (by decide)
      rfl rfl rfl,
    ?_,
    h8 [⟨"B", some 1⟩] ratesABC (4/5) (93/100) (8295/100) (by decide) (by decide)
      rfl rfl rfl (by decide)⟩
  intro heq
  have := h7 [⟨"Bank C", none⟩] intRates 1 2 3 (by decide) (by decide)
    rfl rfl rfl "KeyError: GBP" heq
  exact absurd this (by decide)

/-! ## Claim theorems for the database loader -/

/-- C6: `load_to_db` has full-replace semantics: whatever the prior
contents of the database, afterwards exactly one table of the given name
exists and it holds exactly the saved frame; loading twice keeps only the
second load. -/
theorem save_table_full_replace :
    ∀ db name df,
      countTables (load_to_db db df name) name = 1 ∧
      lookupTable (load_to_db db df name) name = some df ∧
      ∀ df2,
        countTables (load_to_db (load_to_db db df name) df2 name) name = 1 ∧
        lookupTable (load_to_db (load_to_db db df name) df2 name) name =
          some df2 := by
  have hcount : ∀ db (name : String) df,
      countTables (load_to_db db df name) name = 1 := by
    intro db name df
    unfold countTables load_to_db
    rw [List.filter_cons, if_pos (by simp), List.filter_filter]
    have hfalse : ∀ p : String × DataFrame,
        ((p.1 != name) && (p.1 == name)) = false := by
      intro p
      cases h : p.1 == name <;> simp [bne, h]
    simp [hfalse]
  have hlook : ∀ db (name : String) df,
      lookupTable (load_to_db db df name) name = some df := by
    intro db name df
    unfold lookupTable load_to_db
    rw [List.find?_cons_of_pos _ (by simp)]
    rfl
  intro db name df
  exact ⟨hcount _ _ _, hlook _ _ _, fun df2 => ⟨hcount _ _ _, hlook _ _ _⟩⟩

/-! ## Lemmas about the CSV loader: splitting and joining lines -/

theorem mySplit_ne_nil (cs : List Char) : mySplit cs ≠ [] := by
  cases cs with
  | nil => simp [mySplit]
  | cons c t =>
    rw [mySplit]
    cases h : mySplit t with
    | nil => simp
    | cons s ss =>
      by_cases hc : c = ','
      · simp [hc]
      · simp [hc]

theorem mySplit_no_comma (x : List Char) (hx : ',' ∉ x) : mySplit x = [x] := by
  induction x with
  | nil => rfl
  | cons c t ih =>
    have hc : c ≠ ',' := fun h => hx (by rw [h]; exact List.mem_cons_self _ _)
    have ht : ',' ∉ t := fun h => hx (List.mem_cons_of_mem _ h)
    rw [mySplit, ih ht]
    simp [hc]

theorem mySplit_append_comma (x rest : List Char) (hx : ',' ∉ x) :
    mySplit (x ++ ',' :: rest) = x :: mySplit rest := by
  induction x with
  | nil =>
    rw [List.nil_append, mySplit]
    cases h : mySplit rest with
    | nil => exact absurd h (mySplit_ne_nil rest)
    | cons s ss => simp
  | cons c t ih =>
    have hc : c ≠ ',' := fun h => hx (by rw [h]; exact List.mem_cons_self _ _)
    have ht : ',' ∉ t := fun h => hx (List.mem_cons_of_mem _ h)
    rw [List.cons_append, mySplit, ih ht]
    simp [hc]

theorem mySplit_myJoin (xss : List (List Char)) (hne : xss ≠ [])
    (hc : ∀ xs ∈ xss, ',' ∉ xs) : mySplit (myJoin xss) = xss := by
  induction xss with
  | nil => cases hne rfl
  | cons x xs ih =>
    cases xs with
    | nil => exact mySplit_no_comma x (hc x (List.mem_cons_self _ _))
    | cons y ys =>
      rw [show myJoin (x :: y :: ys) = x ++ ',' :: myJoin (y :: ys) from rfl,
        mySplit_append_comma _ _ (hc x (List.mem_cons_self _ _)),
        ih (by simp) (fun z hz => hc z (List.mem_cons_of_mem _ hz))]

/-! ## Lemmas about the CSV loader: decimal rendering -/

theorem digitChar_isDigit {d : Nat} (h : d < 10) : (digitChar d).isDigit = true := by
  interval_cases d <;> decide

theorem digitChar_toNat {d : Nat} (h : d < 10) : (digitChar d).toNat - 48 = d := by
  interval_cases d <;> decide

theorem not_comma_of_isDigit {c : Char} (h : c.isDigit = true) : c ≠ ',' := by
  intro h2
  rw [h2] at h
  exact absurd h (by decide)

theorem natDigits_all_digit (n : Nat) : ∀ c ∈ natDigits n, c.isDigit = true := by
  intro c hc
  unfold natDigits at hc
  by_cases h0 : n = 0
  · rw [if_pos h0] at hc
    rcases List.mem_singleton.mp hc with rfl
    decide
  · rw [if_neg h0] at hc
    rw [List.mem_map] at hc
    rcases hc with ⟨d, hd, rfl⟩
    exact digitChar_isDigit
      (Nat.digits_lt_base (by norm_num) (List.mem_reverse.mp hd))

theorem natDigits_ne_nil (n : Nat) : natDigits n ≠ [] := by
  unfold natDigits
  by_cases h0 : n = 0
  · rw [if_pos h0]; simp
  · rw [if_neg h0]
    simp [Nat.digits_ne_nil_iff_ne_zero, h0]

theorem digitsVal_ofDigits (L : List Nat) (hL : ∀ d ∈ L, d < 10) :
    digitsVal (L.reverse.map digitChar) = Nat.ofDigits 10 L := by
  induction L with
  | nil => rfl
  | cons d ds ih =>
    rw [List.reverse_cons, List.map_append]
    show (List.map digitChar ds.reverse ++ [digitChar d]).foldl
      (fun a c => a * 10 + (c.toNat - 48)) 0 = _
    rw [List.foldl_append]
    show digitsVal (ds.reverse.map digitChar) * 10 + ((digitChar d).toNat - 48) = _
    rw [ih (fun x hx => hL x (List.mem_cons_of_mem _ hx)),
      digitChar_toNat (hL d (List.mem_cons_self _ _)), Nat.ofDigits_cons]
    ring

theorem digitsVal_natDigits (n : Nat) : digitsVal (natDigits n) = n := by
  by_cases h0 : n = 0
  · subst h0; decide
  · unfold natDigits
    rw [if_neg h0,
      digitsVal_ofDigits _ (fun d hd => Nat.digits_lt_base (by norm_num) hd),
      Nat.ofDigits_digits]

theorem natDigits_length_le {n k : Nat} (hk : 1 ≤ k) (h : n < 10 ^ k) :
    (natDigits n).length ≤ k := by
  by_cases h0 : n = 0
  · subst h0; simpa [natDigits] using hk
  · unfold natDigits
    rw [if_neg h0, List.length_map, List.length_reverse]
    by_contra hlt
    push_neg at hlt
    have h1 : 10 ^ (Nat.digits 10 n).length ≤ 10 * n :=
      Nat.base_pow_length_digits_le 10 n (by norm_num) h0
    have h2 : 10 ^ (k + 1) ≤ 10 ^ (Nat.digits 10 n).length :=
      Nat.pow_le_pow_right (by norm_num) hlt
    have h3 : 10 ^ (k + 1) = 10 * 10 ^ k := by ring
    omega

theorem padZeros_length {k : Nat} {cs : List Char} (h : cs.length ≤ k) :
    (padZeros k cs).length = k := by
  unfold padZeros
  rw [List.length_append, List.length_replicate]
  omega

theorem digitsVal_padZeros (k : Nat) (cs : List Char) :
    digitsVal (padZeros k cs) = digitsVal cs := by
  unfold padZeros digitsVal
  rw [List.foldl_append]
  have : ∀ m, (List.replicate m '0').foldl
      (fun a c => a * 10 + (c.toNat - 48)) 0 = 0 := by
    intro m
    induction m with
    | zero => rfl
    | succ m ih => rw [List.replicate_succ, List.foldl_cons]; exact ih
  rw [this]

theorem padZeros_all_digit {k : Nat} {cs : List Char}
    (h : ∀ c ∈ cs, c.isDigit = true) :
    ∀ c ∈ padZeros k cs, c.isDigit = true := by
  intro c hc
  unfold padZeros at hc
  rcases List.mem_append.mp hc with h1 | h1
  · rw [List.eq_of_mem_replicate h1]; decide
  · exact h c h1

/-! ## Lemmas about the CSV loader: the parser on rendered numbers -/

theorem takeWhile_all_append {p : Char → Bool} {xs : List Char} {y : Char}
    (ys : List Char) (hxs : ∀ a ∈ xs, p a = true) (hy : p y = false) :
    (xs ++ y :: ys).takeWhile p = xs ∧ (xs ++ y :: ys).dropWhile p = y :: ys := by
  induction xs with
  | nil => simp [List.takeWhile_cons, List.dropWhile_cons, hy]
  | cons a t ih =>
    have ha := hxs a (List.mem_cons_self _ _)
    have ht : ∀ b ∈ t, p b = true := fun b hb => hxs b (List.mem_cons_of_mem _ hb)
    rcases ih ht with ⟨h1, h2⟩
    constructor
    · rw [List.cons_append, List.takeWhile_cons, ha]
      simp [h1]
    · rw [List.cons_append, List.dropWhile_cons, ha]
      simp [h2]

theorem pyAfterSign_digits (sgn : ℚ) (I F : List Char)
    (hI : ∀ c ∈ I, c.isDigit = true) (hIne : I ≠ [])
    (hF : ∀ c ∈ F, c.isDigit = true) :
    pyAfterSign sgn (I ++ '.' :: F) =
      some (sgn * ((digitsVal I : ℚ) + (digitsVal F : ℚ) / 10 ^ F.length)) := by
  obtain ⟨htake, hdrop⟩ :=
    takeWhile_all_append F hI (show Char.isDigit '.' = false from rfl)
  have hIem : I.isEmpty = false := by
    cases I with
    | nil => cases hIne rfl
    | cons a t => rfl
  have hFdrop : F.dropWhile Char.isDigit = [] := List.dropWhile_eq_nil_iff.mpr hF
  have hFtake : F.takeWhile Char.isDigit = F := by
    have hsplit := List.takeWhile_append_dropWhile (p := Char.isDigit) (l := F)
    rw [hFdrop, List.append_nil] at hsplit
    exact hsplit
  rw [pyAfterSign]
  dsimp only
  rw [htake, hdrop]
  dsimp only
  rw [if_pos (show ('.' == '.') = true from rfl)]
  rw [hFtake, hFdrop]
  rw [if_neg (by rw [hIem]; simp)]

theorem render_value (q : ℚ) (k : Nat) (sc : Nat) (hdvd : q.den ∣ 10 ^ k)
    (hsc : q.num.natAbs * (10 ^ k / q.den) = sc) :
    (if q.num < 0 then (-1 : ℚ) else 1) *
      (((sc / 10 ^ k : Nat) : ℚ) + ((sc % 10 ^ k : Nat) : ℚ) / (10 : ℚ) ^ k) = q := by
  have h10 : (0 : ℚ) < (10 : ℚ) ^ k := by positivity
  have hden : (0 : ℚ) < (q.den : ℚ) := by exact_mod_cast q.den_pos
  have hsum : ((sc / 10 ^ k : Nat) : ℚ) + ((sc % 10 ^ k : Nat) : ℚ) / (10 : ℚ) ^ k
      = (sc : ℚ) / (10 : ℚ) ^ k := by
    rw [eq_div_iff (ne_of_gt h10), add_mul,
      div_mul_cancel₀ _ (ne_of_gt h10)]
    have hdm : sc / 10 ^ k * 10 ^ k + sc % 10 ^ k = sc := by
      rw [mul_comm]
      exact Nat.div_add_mod sc (10 ^ k)
    exact_mod_cast hdm
  have hNat : sc * q.den = q.num.natAbs * 10 ^ k := by
    rw [← hsc, mul_assoc, Nat.div_mul_cancel hdvd]
  have hscq : (sc : ℚ) / (10 : ℚ) ^ k = (q.num.natAbs : ℚ) / (q.den : ℚ) := by
    rw [div_eq_div_iff (ne_of_gt h10) (ne_of_gt hden)]
    exact_mod_cast hNat
  have habs : ((q.num.natAbs : ℚ)) = |(q.num : ℚ)| := by
    rw [Int.cast_natAbs, Int.cast_abs]
  rw [hsum, hscq, habs]
  by_cases hneg : q.num < 0
  · rw [if_pos hneg,
      abs_of_neg (show ((q.num : ℚ)) < 0 by exact_mod_cast hneg)]
    have hring : (-1 : ℚ) * (-(q.num : ℚ) / (q.den : ℚ)) =
        (q.num : ℚ) / (q.den : ℚ) := by ring
    rw [hring]
    exact Rat.num_div_den q
  · rw [if_neg hneg,
      abs_of_nonneg (show (0 : ℚ) ≤ (q.num : ℚ) by exact_mod_cast not_lt.mp hneg),
      one_mul]
    exact Rat.num_div_den q

theorem pyFloatCore_renderNum {q : ℚ} {k0 : Nat} (h : decExp q.den = some k0) :
    pyFloatCore (renderNum q) = some q := by
  have hp : (10 ^ k0 % q.den == 0) = true := by
    rw [decExp] at h
    have h2 := List.find?_some h
    simpa using h2
  have hdvd0 : q.den ∣ 10 ^ k0 := Nat.dvd_of_mod_eq_zero (by simpa using hp)
  obtain ⟨k, hkdef⟩ : ∃ k, max k0 1 = k := ⟨_, rfl⟩
  have hk1 : 1 ≤ k := hkdef ▸ le_max_right k0 1
  have hdvd : q.den ∣ 10 ^ k :=
    hdvd0.trans (pow_dvd_pow 10 (hkdef ▸ le_max_left k0 1))
  obtain ⟨sc, hscdef⟩ : ∃ sc, q.num.natAbs * (10 ^ k / q.den) = sc := ⟨_, rfl⟩
  have hrender : renderNum q =
      (if q.num < 0 then ['-'] else []) ++
        natDigits (sc / 10 ^ k) ++
          '.' :: padZeros k (natDigits (sc % 10 ^ k)) := by
    rw [renderNum, h]
    dsimp only
    rw [hkdef, hscdef]
  have hpow : 0 < 10 ^ k := Nat.pos_pow_of_pos k (by norm_num)
  have hFlen : (padZeros k (natDigits (sc % 10 ^ k))).length = k :=
    padZeros_length (natDigits_length_le hk1 (Nat.mod_lt _ hpow))
  have hI := natDigits_all_digit (sc / 10 ^ k)
  have hIne := natDigits_ne_nil (sc / 10 ^ k)
  have hF := padZeros_all_digit (k := k) (natDigits_all_digit (sc % 10 ^ k))
  have hv := render_value q k sc hdvd hscdef
  rw [hrender]
  by_cases hneg : q.num < 0
  · rw [if_pos hneg]
    rw [show ['-'] ++ natDigits (sc / 10 ^ k) ++
          '.' :: padZeros k (natDigits (sc % 10 ^ k)) =
        '-' :: (natDigits (sc / 10 ^ k) ++
          '.' :: padZeros k (natDigits (sc % 10 ^ k))) from rfl]
    rw [pyFloatCore]
    rw [if_neg (by decide), if_pos (by decide)]
    rw [pyAfterSign_digits _ _ _ hI hIne hF, hFlen,
      digitsVal_natDigits, digitsVal_padZeros, digitsVal_natDigits]
    rw [if_pos hneg] at hv
    rw [hv]
  · rw [if_neg hneg, List.nil_append]
    obtain ⟨c, I2, hI0⟩ := List.exists_cons_of_ne_nil hIne
    have hcdig : c.isDigit = true := hI c (by rw [hI0]; exact List.mem_cons_self _ _)
    have hplus : (c == '+') = false := by
      refine beq_eq_false_iff_ne.mpr (fun hc => ?_)
      rw [hc] at hcdig
      exact absurd hcdig (by decide)
    have hminus : (c == '-') = false := by
      refine beq_eq_false_iff_ne.mpr (fun hc => ?_)
      rw [hc] at hcdig
      exact absurd hcdig (by decide)
    rw [hI0, List.cons_append, pyFloatCore]
    rw [hplus, hminus]
    rw [if_neg (by simp), if_neg (by simp)]
    rw [← List.cons_append, ← hI0]
    rw [pyAfterSign_digits _ _ _ hI hIne hF, hFlen,
      digitsVal_natDigits, digitsVal_padZeros, digitsVal_natDigits]
    rw [if_neg hneg] at hv
    rw [hv]

/-! ## Lemmas about the CSV loader: per-column round trip -/

theorem list_map_id_of_mem {α : Type} {l : List α} {f : α → α}
    (h : ∀ a ∈ l, f a = a) : l.map f = l := by
  induction l with
  | nil => rfl
  | cons a t ih =>
    rw [List.map_cons, h a (List.mem_cons_self _ _),
      ih (fun b hb => h b (List.mem_cons_of_mem _ hb))]

theorem getD_map_get {α β : Type} (l : List α) (f : α → β) (d : β) (j : Nat)
    (h : j < l.length) : (l.map f).getD j d = f (l.get ⟨j, h⟩) := by
  rw [List.getD_eq_getElem?_getD]
  simp [List.getElem?_map, List.getElem?_eq_getElem h]

theorem range_map_getD {α β : Type} (l : List α) (f : α → β) (d : α) :
    (List.range l.length).map (fun i => f (l.getD i d)) = l.map f := by
  apply List.ext_get
  · simp
  · intro i h1 h2
    rw [List.get_map, List.get_map, List.get_range]
    rw [List.getD_eq_getElem?_getD]
    rw [List.length_map, List.length_range] at h1
    simp [List.getElem?_eq_getElem h1]

theorem safeStr_spec {s : String} (h : safeStr s = true) :
    s.data ≠ [] ∧ ',' ∉ s.data ∧ pyFloatCore s.data = none := by
  rw [safeStr] at h
  simp only [Bool.and_eq_true, Bool.not_eq_true'] at h
  obtain ⟨⟨⟨⟨⟨h1, h2⟩, h3⟩, h4⟩, h5⟩, h6⟩ := h
  refine ⟨by simpa using h1, by simpa using h2, ?_⟩
  rw [← Option.not_isSome_iff_eq_none]
  simp [h6]

theorem renderNum_ne_nil (q : ℚ) : renderNum q ≠ [] := by
  rw [renderNum]
  cases h : decExp q.den with
  | none => simp
  | some k0 =>
    dsimp only
    intro hc
    rcases List.append_eq_nil.mp hc with ⟨h1, h2⟩
    cases h2

theorem comma_not_mem_renderNum (q : ℚ) : ',' ∉ renderNum q := by
  rw [renderNum]
  cases h : decExp q.den with
  | none => simp
  | some k0 =>
    dsimp only
    intro hc
    rcases List.mem_append.mp hc with h1 | h1
    · rcases List.mem_append.mp h1 with h2 | h2
      · by_cases hneg : q.num < 0
        · rw [if_pos hneg] at h2
          rcases List.mem_singleton.mp h2 with h3
          cases h3
        · rw [if_neg hneg] at h2
          cases h2
      · exact not_comma_of_isDigit (natDigits_all_digit _ _ h2) rfl
    · rcases List.mem_cons.mp h1 with h2 | h2
      · cases h2
      · exact not_comma_of_isDigit
          (padZeros_all_digit (natDigits_all_digit _) _ h2) rfl

theorem comma_not_mem_renderCell {v : PVal} (hv : isStrCell v = true ∨ isNumCell v = true) :
    ',' ∉ renderCell v := by
  cases v with
  | str s =>
    rcases hv with h | h
    · exact (safeStr_spec h).2.1
    · cases h
  | num q => exact comma_not_mem_renderNum q
  | null => simp [renderCell]
  | pyNone => simp [renderCell]

theorem parse_render_col (col : List PVal) (hsafe : safeCol col = true) :
    (col.map renderCell).map (parseCell (colIsNumeric (col.map renderCell))) =
      col := by
  rw [List.map_map]
  rcases Bool.or_eq_true _ _ |>.mp (by rwa [safeCol] at hsafe) with hstr | hnum
  · rw [List.all_eq_true] at hstr
    cases hcol : col with
    | nil => rfl
    | cons v rest =>
      have hv := hstr v (by rw [hcol]; exact List.mem_cons_self _ _)
      obtain ⟨s, rfl⟩ : ∃ s, v = PVal.str s := by
        cases v with
        | str s => exact ⟨s, rfl⟩
        | num q => cases hv
        | null => cases hv
        | pyNone => cases hv
      obtain ⟨hne, _, hparse⟩ := safeStr_spec (by simpa [isStrCell] using hv)
      have hnum0 : colIsNumeric (col.map renderCell) = false := by
        cases hcn : colIsNumeric (col.map renderCell) with
        | false => rfl
        | true =>
          have hmem : renderCell (PVal.str s) ∈ col.map renderCell := by
            rw [hcol]
            exact List.mem_map_of_mem _ (List.mem_cons_self _ _)
          have := List.all_eq_true.mp hcn _ hmem
          rw [renderCell] at this
          rcases Bool.or_eq_true _ _ |>.mp this with h1 | h1
          · exact absurd (List.isEmpty_iff.mp h1) hne
          · rw [Option.isSome_iff_exists] at h1
            rcases h1 with ⟨a, ha⟩
            rw [hparse] at ha
            cases ha
      rw [← hcol, hnum0]
      apply list_map_id_of_mem
      intro a ha
      have hva := hstr a ha
      obtain ⟨t, rfl⟩ : ∃ t, a = PVal.str t := by
        cases a with
        | str t => exact ⟨t, rfl⟩
        | num q => cases hva
        | null => cases hva
        | pyNone => cases hva
      obtain ⟨hne2, _, _⟩ := safeStr_spec (by simpa [isStrCell] using hva)
      show parseCell false (renderCell (PVal.str t)) = PVal.str t
      rw [renderCell, parseCell,
        if_neg (by simpa using hne2)]
      rfl
  · rw [List.all_eq_true] at hnum
    have hcn : colIsNumeric (col.map renderCell) = true := by
      rw [colIsNumeric, List.all_eq_true]
      intro cs hcs
      rcases List.mem_map.mp hcs with ⟨v, hv, rfl⟩
      have hnv := hnum v hv
      cases v with
      | str s => cases hnv
      | null => simp [renderCell]
      | pyNone => cases hnv
      | num q =>
        rw [isNumCell, Option.isSome_iff_exists] at hnv
        rcases hnv with ⟨k0, hk0⟩
        rw [renderCell]
        simp [pyFloatCore_renderNum hk0]
    rw [hcn]
    apply list_map_id_of_mem
    intro a ha
    have hva := hnum a ha
    cases a with
    | str s => cases hva
    | null => rfl
    | pyNone => cases hva
    | num q =>
      rw [isNumCell, Option.isSome_iff_exists] at hva
      rcases hva with ⟨k0, hk0⟩
      show parseCell true (renderCell (PVal.num q)) = PVal.num q
      rw [renderCell, parseCell,
        if_neg (by simpa using renderNum_ne_nil q)]
      rw [if_pos rfl, pyFloatCore_renderNum hk0]

theorem fromCsv_toCsv (df : DataFrame) (hne : df.cols ≠ [])
    (hnames : ∀ p ∈ df.cols, ',' ∉ p.1.data)
    (hlen : ∀ p ∈ df.cols, p.2.length = nRows df)
    (hcol : ∀ p ∈ df.cols, safeCol p.2 = true) :
    fromCsv (toCsv df) = df := by
  have hH : mySplit (myJoin (df.cols.map (fun p => p.1.data))) =
      df.cols.map (fun p => p.1.data) := by
    apply mySplit_myJoin
    · simpa using hne
    · intro xs hxs
      rcases List.mem_map.mp hxs with ⟨p, hp, rfl⟩
      exact hnames p hp
  have hcell_safe : ∀ p ∈ df.cols, ∀ i, ',' ∉ renderCell (p.2.getD i PVal.null) := by
    intro p hp i
    have hv : p.2.getD i PVal.null = PVal.null ∨ p.2.getD i PVal.null ∈ p.2 := by
      by_cases hi : i < p.2.length
      · right
        rw [List.getD_eq_getElem?_getD, List.getElem?_eq_getElem hi]
        exact List.getElem_mem hi
      · left
        rw [List.getD_eq_getElem?_getD, List.getElem?_eq_none (by omega)]
        rfl
    rcases hv with hv | hv
    · rw [hv]
      simp [renderCell]
    · have hsc := hcol p hp
      rw [safeCol] at hsc
      rcases Bool.or_eq_true _ _ |>.mp hsc with hs | hs
      · exact comma_not_mem_renderCell
          (Or.inl (List.all_eq_true.mp hs _ hv))
      · exact comma_not_mem_renderCell
          (Or.inr (List.all_eq_true.mp hs _ hv))
  have hRows : List.map mySplit ((List.range (nRows df)).map (fun i =>
      myJoin (df.cols.map (fun p => renderCell (p.2.getD i PVal.null))))) =
      (List.range (nRows df)).map (fun i =>
        df.cols.map (fun p => renderCell (p.2.getD i PVal.null))) := by
    rw [List.map_map]
    apply List.map_congr_left
    intro i _
    apply mySplit_myJoin
    · simpa using hne
    · intro xs hxs
      rcases List.mem_map.mp hxs with ⟨p, hp, rfl⟩
      exact hcell_safe p hp i
  rw [toCsv, fromCsv]
  simp only [hH, hRows, List.length_map]
  refine congrArg DataFrame.mk ?_
  apply List.ext_get
  · simp
  · intro j h1 h2
    rw [List.length_map, List.length_range] at h1
    rw [List.get_map, List.get_range]
    have hcells : ((List.range (nRows df)).map (fun i =>
        df.cols.map (fun p => renderCell (p.2.getD i PVal.null)))).map
          (fun r => r.getD j []) =
        (df.cols.get ⟨j, h1⟩).2.map renderCell := by
      rw [List.map_map]
      have hmid : ((List.range (nRows df)).map ((fun r => List.getD r j []) ∘
          (fun i => df.cols.map (fun p => renderCell (p.2.getD i PVal.null))))) =
          (List.range (nRows df)).map (fun i =>
            renderCell ((df.cols.get ⟨j, h1⟩).2.getD i PVal.null)) := by
        apply List.map_congr_left
        intro i _
        exact getD_map_get df.cols
          (fun p => renderCell (p.2.getD i PVal.null)) [] j h1
      rw [hmid, ← hlen _ (df.cols.get_mem j h1)]
      exact range_map_getD (df.cols.get ⟨j, h1⟩).2 renderCell PVal.null
    rw [hcells, getD_map_get df.cols (fun p => p.1.data) [] j h1,
      parse_render_col _ (hcol _ (df.cols.get_mem j h1))]

/-- C7: `load_to_csv` writes a header line of the column names followed by
one comma-delimited line per record, in table order and with no index
column, and reading the file back yields the table that was saved; the
hypothesis pins down the modelled fragment in which "modulo type
coercion" is the identity: nonempty rectangular frames whose text cells
contain no delimiter characters and do not themselves look numeric, and
whose numbers have finite decimal expansions. -/
theorem save_csv_round_trip (df : DataFrame) (h : csvSafe df = true) :
    (toCsv df).length = nRows df + 1 ∧
    (toCsv df).head? = some (myJoin (df.cols.map (fun p => p.1.data))) ∧
    (∀ i, i < nRows df → (toCsv df).getD (i + 1) [] =
      myJoin (df.cols.map (fun p => renderCell (p.2.getD i PVal.null)))) ∧
    fromCsv (toCsv df) = df := by
  rw [csvSafe, Bool.and_eq_true, List.all_eq_true] at h
  obtain ⟨hne0, hall⟩ := h
  have hne : df.cols ≠ [] := by simpa using hne0
  have hprops : ∀ p ∈ df.cols,
      safeName p.1 = true ∧ p.2.length = nRows df ∧ safeCol p.2 = true := by
    intro p hp
    have hx := hall p hp
    simp only [Bool.and_eq_true] at hx
    obtain ⟨⟨h1, h2⟩, h3⟩ := hx
    exact ⟨h1, by simpa using h2, h3⟩
  refine ⟨by simp [toCsv], rfl, ?_, ?_⟩
  · intro i hi
    rw [toCsv, List.getD_cons_succ,
      getD_map_get (List.range (nRows df)) _ [] i (by simpa using hi),
      List.get_range]
  · apply fromCsv_toCsv df hne
    · intro p hp
      have h1 := (hprops p hp).1
      rw [safeName] at h1
      simp only [Bool.and_eq_true, Bool.not_eq_true'] at h1
      simpa using h1.1.1.1
    · exact fun p hp => (hprops p hp).2.1
    · exact fun p hp => (hprops p hp).2.2

/-- Witness for `save_csv_round_trip` at a concrete two-record table. -/
theorem save_csv_round_trip_witness :
    (toCsv csvDf).length = nRows csvDf + 1 ∧
    (toCsv csvDf).head? = some (myJoin (csvDf.cols.map (fun p => p.1.data))) ∧
    (∀ i, i < nRows csvDf → (toCsv csvDf).getD (i + 1) [] =
      myJoin (csvDf.cols.map (fun p => renderCell (p.2.getD i PVal.null)))) ∧
    fromCsv (toCsv csvDf) = csvDf :=
  save_csv_round_trip csvDf (by decide)

end BankETL
